import Mathlib

/-!
Shallow embedding of the core of `gitlab_api.py` (class `GitLabClient`):
the retrying request transport `_make_request` and the search engine
(`search_files`, `grep_repository_content`, `search_commits_enhanced`,
`get_file`), together with models of the Python standard-library pieces
they rely on (`fnmatch.fnmatch`, `str.lower`, substring `in`,
`base64.b64decode`, strict `bytes.decode('utf-8')`).

The Python `re` module is treated as an external engine: the embedding is
parameterised by an abstract `RegexEngine` providing `compile` (which may
fail, modelling `re.error`) and `rsearch` (modelling `Pattern.search`
followed by `.group()`).  The literal fallback `re.compile(re.escape(p),
flags).search(line)` is modelled concretely as substring search, which is
exactly what an escaped pattern matches.
-/

namespace GitlabMcp

/-! Python string primitives. -/

/-- Model of `str.lower()` (exact on ASCII, which is all the development
evaluates it on): lowercase every character. -/
def pyLower (s : String) : String :=
  String.mk (s.data.map Char.toLower)

/-- First index `i` such that `p` occurs in `s` starting at `i`, on
character lists.  Models where `re.search` of an escaped (literal) pattern
finds its match, and Python's substring operator `in` via `isSome`. -/
def firstOccur (p : List Char) : List Char → Option Nat
  | [] => if p = [] then some 0 else none
  | c :: s' =>
    if p.isPrefixOf (c :: s') then some 0
    else (firstOccur p s').map (· + 1)

/-- Model of Python's substring test `p in s`. -/
def pySubstr (p s : String) : Bool :=
  (firstOccur p.data s.data).isSome

/-- Split a character list at every occurrence of `sep`; the empty list
yields one empty field, exactly as Python's `str.split(sep)` with an
explicit separator. -/
def splitOnChar (sep : Char) : List Char → List (List Char)
  | [] => [[]]
  | c :: rest =>
    let r := splitOnChar sep rest
    if c = sep then [] :: r
    else
      match r with
      | [] => [[c]]
      | h :: t => (c :: h) :: t

/-- Model of `content.split('\n')` (gitlab_api.py line 442). -/
def pySplitNL (s : String) : List String :=
  (splitOnChar (Char.ofNat 10) s.data).map String.mk

/-! Transport: the `_make_request` loop (gitlab_api.py lines 48-118).

One attempt of the loop body runs `curl` via `subprocess.run`.  A
`CurlOutcome` records what the environment did on one attempt: the process
completed with an exit code and (already decoded) stdout/stderr text, or it
timed out (`subprocess.TimeoutExpired`), or some other exception was
raised.  The decoding fallback of lines 75-96 guarantees that whenever the
returncode is 0 and stdout is non-empty some text emerges, so modelling
stdout as text is faithful for the success test on line 98. -/

inductive CurlOutcome where
  | completed (returncode : Int) (stdout stderr : String)
  | timedOut
  | subprocessError (msg : String)
  deriving DecidableEq

/-- The value `_make_request` returns on success: `json.loads(stdout)`
when it parses, otherwise the raw text (line 98-103).  The JSON value type
`J` and the parser are parameters of the embedding. -/
inductive ApiResponse (J : Type) where
  | json (j : J)
  | text (s : String)
  deriving DecidableEq

inductive TransportResult (J : Type) where
  | success (r : ApiResponse J)
  | exhausted (msg : String)
  deriving DecidableEq

/-- Lines 99-103: parse stdout as JSON, fall back to the raw text. -/
def parseBody {J : Type} (jp : String → Option J) (s : String) : ApiResponse J :=
  match jp s with
  | some j => ApiResponse.json j
  | none => ApiResponse.text s

/-- Line 98: an attempt succeeds iff the process completed with exit code 0
and a non-empty stdout (Python truthiness of the string); timeouts and other
exceptions are failures (lines 109-116). -/
def attemptSuccess {J : Type} (jp : String → Option J) : CurlOutcome → Option (ApiResponse J)
  | CurlOutcome.completed rc s _ => if rc = 0 ∧ s ≠ "" then some (parseBody jp s) else none
  | CurlOutcome.timedOut => none
  | CurlOutcome.subprocessError _ => none

/-- The loop `for attempt in range(1, retries + 1)` of line 55, from a given
attempt number.  `host i` is the outcome of the `i`-th attempt (1-based).
Falling out of the loop raises the line-118 exception. -/
def makeRequestFrom {J : Type} (jp : String → Option J) (host : Nat → CurlOutcome)
    (endpoint : String) (retries : Nat) (attempt : Nat) : TransportResult J :=
  if attempt ≤ retries then
    match attemptSuccess jp (host attempt) with
    | some r => TransportResult.success r
    | none => makeRequestFrom jp host endpoint retries (attempt + 1)
  else
    TransportResult.exhausted
      ("API request failed after " ++ toString retries ++ " attempts: " ++ endpoint)
termination_by retries + 1 - attempt
decreasing_by omega

/-- Model of `_make_request(endpoint, retries)`: run the attempt loop from attempt 1. -/
def make_request {J : Type} (jp : String → Option J) (host : Nat → CurlOutcome)
    (endpoint : String) (retries : Nat) : TransportResult J :=
  makeRequestFrom jp host endpoint retries 1

/-! Model of `fnmatch.fnmatch` (used by `search_files` and the grep file filter).

Python's `fnmatch.translate` turns `*` into `.*` (any characters, `/`
included — there is no special `**` handling), `?` into any single
character, and anchors the whole pattern.  On POSIX `os.path.normcase` is
the identity, so matching is case-sensitive.  The model covers the `*`, `?`
and literal-character constructs (bracket classes are not used anywhere in
this development). -/

def fnmatchFuel : Nat → List Char → List Char → Bool
  | 0, _, _ => false
  | fuel + 1, p, s =>
    match p, s with
    | [], [] => true
    | [], _ :: _ => false
    | '*' :: p', s =>
      fnmatchFuel fuel p' s ||
        (match s with
         | [] => false
         | _ :: s' => fnmatchFuel fuel ('*' :: p') s')
    | '?' :: p', _ :: s' => fnmatchFuel fuel p' s'
    | '?' :: _, [] => false
    | c :: p', d :: s' => c = d && fnmatchFuel fuel p' s'
    | _ :: _, [] => false

/-- Every recursive step of the matcher shrinks `p.length + s.length`, so
this fuel is always sufficient and the `0` branch is unreachable. -/
def fnmatchChars (p s : List Char) : Bool :=
  fnmatchFuel (p.length + s.length + 1) p s

/-- Model of `fnmatch.fnmatch(name, pattern)`. -/
def fnmatch (name pattern : String) : Bool :=
  fnmatchChars pattern.data name.data

/-! Regex engine abstraction and the regex-or-literal fallback.

`re.compile(pattern, flags)` either yields a compiled pattern or raises
`re.error`; whether it raises depends only on the pattern text, never on
the flags, so `compile` takes the pattern alone.  `rsearch r ci line`
models `Pattern.search(line)` (the pattern compiled with `re.IGNORECASE`
iff `ci`) followed by `.group()` on the match object: `some m` with the
matched substring, or `none` when there is no match. -/

structure RegexEngine (R : Type) where
  compile : String → Option R
  rsearch : R → Bool → String → Option String

/-- Outcome of the compile step of `grep_repository_content` lines
427-433: either the user pattern compiled, or it failed and the escaped
literal pattern `re.compile(re.escape(pattern), flags)` is used. -/
inductive CompiledPattern (R : Type) where
  | regex (r : R) (ci : Bool)
  | literal (p : String) (ci : Bool)

/-- Lines 429-433: `try: re.compile(pattern, flags) except re.error:
re.compile(re.escape(pattern), flags)`. -/
def compilePattern {R : Type} (eng : RegexEngine R) (pattern : String) (ci : Bool) :
    CompiledPattern R :=
  match eng.compile pattern with
  | some r => CompiledPattern.regex r ci
  | none => CompiledPattern.literal pattern ci

/-- Searching one line with an escaped (literal) compiled pattern: the
match is the first occurrence of `p` in `line` as a substring,
case-insensitively when the `re.IGNORECASE` flag was set; `.group()` is the
matched slice of `line` itself. -/
def literalSearch (p line : String) (ci : Bool) : Option String :=
  if ci then
    match firstOccur (pyLower p).data (pyLower line).data with
    | some i => some (String.mk ((line.data.drop i).take p.data.length))
    | none => none
  else
    match firstOccur p.data line.data with
    | some _ => some p
    | none => none

/-- Model of `regex.search(line)` + `.group()` for the compiled-or-fallback pattern. -/
def patternSearch {R : Type} (eng : RegexEngine R) : CompiledPattern R → String → Option String
  | CompiledPattern.regex r ci, line => eng.rsearch r ci line
  | CompiledPattern.literal p ci, line => literalSearch p line ci

/-! Repository tree entries and `search_files` (lines 378-396). -/

/-- One item of the recursive tree listing: `item["type"]` is `"blob"` for
files and `"tree"` for directories; `item["path"]` is the full path. -/
structure TreeItem where
  type : String
  path : String
  deriving DecidableEq

/-- The shared append-then-test accumulation loop: append each element
satisfying `p`, and `break` as soon as the accumulated count reaches
`limit` — the test runs *after* the append, exactly as in the source
(`if len(...) >= limit: break`).  `count` is the number already
accumulated. -/
def collectLimited {α : Type} (p : α → Bool) (limit : Nat) : List α → Nat → List α
  | [], _ => []
  | x :: xs, count =>
    if p x then
      if count + 1 ≥ limit then [x]
      else x :: collectLimited p limit xs (count + 1)
    else collectLimited p limit xs count

/-- Model of `search_files(pattern, ref, max_results)` after the tree fetch: keep
blob entries whose path fnmatches `pattern`, stopping once `max_results`
entries have been collected (lines 387-396).  `tree` models the host's
response to the recursive tree listing for `ref`. -/
def search_files (tree : List TreeItem) (pattern : String) (max_results : Nat) :
    List TreeItem :=
  collectLimited
    (fun item => item.type = "blob" && fnmatch item.path pattern)
    max_results tree 0

/-! Models of `base64.b64decode` and strict UTF-8 decoding (for `get_file`). -/

/-- Value of one character of the standard base64 alphabet, `none` for
characters outside it. -/
def b64Val (c : Char) : Option Nat :=
  if 'A' ≤ c ∧ c ≤ 'Z' then some (c.toNat - 65)
  else if 'a' ≤ c ∧ c ≤ 'z' then some (c.toNat - 97 + 26)
  else if '0' ≤ c ∧ c ≤ '9' then some (c.toNat - 48 + 52)
  else if c = '+' then some 62
  else if c = '/' then some 63
  else none

/-- Decode base64 quadruples into bytes; `=` padding is legal only in the
final quadruple (a misplaced or missing pad is `binascii.Error`). -/
def b64Groups : List Char → Option (List Nat)
  | [] => some []
  | [a, b, '=', '='] => do
    let va ← b64Val a
    let vb ← b64Val b
    pure [va * 4 + vb / 16]
  | [a, b, c, '='] => do
    let va ← b64Val a
    let vb ← b64Val b
    let vc ← b64Val c
    pure [va * 4 + vb / 16, vb % 16 * 16 + vc / 4]
  | a :: b :: c :: d :: rest => do
    let va ← b64Val a
    let vb ← b64Val b
    let vc ← b64Val c
    let vd ← b64Val d
    let tail ← b64Groups rest
    pure ([va * 4 + vb / 16, vb % 16 * 16 + vc / 4, vc % 4 * 64 + vd] ++ tail)
  | _ => none

/-- Model of `base64.b64decode(s)` (default `validate=False`): characters outside
the alphabet and padding are discarded first, then the quadruples are
decoded; `none` models `binascii.Error` on bad padding. -/
def b64decode (s : String) : Option (List Nat) :=
  b64Groups (s.data.filter (fun c => (b64Val c).isSome || c = '='))

/-- Strict `bytes.decode('utf-8')`, as Python's codec implements it:
continuation bytes in `80..BF`, no overlong forms (first continuation
restricted after `E0`/`F0`), no surrogates (restricted after `ED`) and
nothing above `U+10FFFF` (restricted after `F4`).  `none` models
`UnicodeDecodeError`. -/
def utf8Decode : List Nat → Option (List Char)
  | [] => some []
  | b :: rest =>
    if b ≤ 0x7F then
      (Char.ofNat b :: ·) <$> utf8Decode rest
    else if 0xC2 ≤ b ∧ b ≤ 0xDF then
      match rest with
      | c1 :: rest' =>
        if 0x80 ≤ c1 ∧ c1 ≤ 0xBF then
          (Char.ofNat ((b - 0xC0) * 64 + (c1 - 0x80)) :: ·) <$> utf8Decode rest'
        else none
      | [] => none
    else if 0xE0 ≤ b ∧ b ≤ 0xEF then
      match rest with
      | c1 :: c2 :: rest' =>
        let lo1 := if b = 0xE0 then 0xA0 else 0x80
        let hi1 := if b = 0xED then 0x9F else 0xBF
        if lo1 ≤ c1 ∧ c1 ≤ hi1 ∧ 0x80 ≤ c2 ∧ c2 ≤ 0xBF then
          (Char.ofNat ((b - 0xE0) * 4096 + (c1 - 0x80) * 64 + (c2 - 0x80)) :: ·) <$>
            utf8Decode rest'
        else none
      | _ => none
    else if 0xF0 ≤ b ∧ b ≤ 0xF4 then
      match rest with
      | c1 :: c2 :: c3 :: rest' =>
        let lo1 := if b = 0xF0 then 0x90 else 0x80
        let hi1 := if b = 0xF4 then 0x8F else 0xBF
        if lo1 ≤ c1 ∧ c1 ≤ hi1 ∧ 0x80 ≤ c2 ∧ c2 ≤ 0xBF ∧ 0x80 ≤ c3 ∧ c3 ≤ 0xBF then
          (Char.ofNat
              ((b - 0xF0) * 262144 + (c1 - 0x80) * 4096 + (c2 - 0x80) * 64 + (c3 - 0x80)) :: ·) <$>
            utf8Decode rest'
        else none
      | _ => none
    else none

/-! The `get_file` operation (lines 296-304). -/

/-- The dictionary `_make_request` returns for a repository-file endpoint.
`content` is the base64-encoded file body; `none` models a response
dictionary without a `"content"` key, which `get_file` passes through
unchanged. -/
structure FileDict where
  content : Option String
  deriving DecidableEq

/-- Model of `get_file(project_id, file_path, ref)` after the transport call.
`fetch` models `_make_request` on the file endpoint for each path:
`.error` is a raised exception (e.g. transport exhaustion).  When a
`content` field is present it is replaced by
`base64.b64decode(content).decode('utf-8')`; either decoding step raises,
and the exception propagates out of `get_file` — there is no encoding
fallback on this path. -/
def get_file (fetch : String → Except String FileDict) (path : String) :
    Except String FileDict :=
  match fetch path with
  | Except.error e => Except.error e
  | Except.ok r =>
    match r.content with
    | none => Except.ok r
    | some b64 =>
      match b64decode b64 with
      | none => Except.error "binascii.Error"
      | some bytes =>
        match utf8Decode bytes with
        | none => Except.error "UnicodeDecodeError"
        | some chars => Except.ok { content := some (String.mk chars) }

/-! The `grep_repository_content` operation (lines 398-464). -/

/-- The binary-extension denylist of lines 419-420. -/
def binaryExts : List String :=
  [".jpg", ".png", ".gif", ".pdf", ".zip", ".exe", ".bin", ".so"]

/-- Lines 410-425: a tree item enters `files_to_search` iff it is a blob,
passes the optional fnmatch file filter, and its lowercased path does not
end in a denylisted extension. -/
def grepFileCandidate (file_filter : Option String) (item : TreeItem) : Bool :=
  item.type = "blob" &&
    (match file_filter with
     | some ff => fnmatch item.path ff
     | none => true) &&
    !(binaryExts.any (fun ext => ext.data.isSuffixOf (pyLower item.path).data))

/-- The `files_to_search` selection loop, with its append-then-test
`max_files` break. -/
def selectFiles (tree : List TreeItem) (file_filter : Option String) (max_files : Nat) :
    List TreeItem :=
  collectLimited (grepFileCandidate file_filter) max_files tree 0

/-- One returned match record (the dictionary built on lines 445-456; the
source key `"match"` is `matched` here because `match` is a Lean keyword). -/
structure SearchMatch where
  file : String
  line_number : Nat
  line : String
  matched : String
  context : Option (List String)
  deriving DecidableEq

/-- Model of `str.strip()` (trims the ASCII whitespace that occurs in this
development): drop whitespace from both ends. -/
def pyStrip (s : String) : String :=
  String.mk
    (((s.data.dropWhile Char.isWhitespace).reverse.dropWhile Char.isWhitespace).reverse)

/-- Lines 453-456: the clamped context slice
`lines[max(0, n - c - 1) : min(len(lines), n + c)]` for the 1-based match
line `n`, computed with Python's integer arithmetic and slice semantics. -/
def contextSlice (lines : List String) (lineNum contextLines : Nat) : List String :=
  let s : Int := max 0 ((lineNum : Int) - (contextLines : Int) - 1)
  let e : Int := min ((lines.length : Int)) ((lineNum : Int) + (contextLines : Int))
  (lines.drop s.toNat).take (e - s).toNat

/-- The `for line_num, line in enumerate(lines, 1)` scan of one file's
lines (lines 443-458).  `ps` is `regex.search` + `.group()`, `lines` stays
the whole file for the context slice, `rest` is the suffix still to scan
and `lineNum` the 1-based number of its head. -/
def grepFileAux (ps : String → Option String) (file : String) (contextLines : Nat)
    (lines : List String) : List String → Nat → List SearchMatch
  | [], _ => []
  | line :: rest, lineNum =>
    (match ps line with
     | some m =>
       [{ file := file
          line_number := lineNum
          line := pyStrip line
          matched := m
          context :=
            if contextLines > 0 then some (contextSlice lines lineNum contextLines)
            else none }]
     | none => []) ++ grepFileAux ps file contextLines lines rest (lineNum + 1)

/-- Scan one fetched file body: split on newlines and test every line. -/
def grepFileContent (ps : String → Option String) (file : String) (contextLines : Nat)
    (content : String) : List SearchMatch :=
  grepFileAux ps file contextLines (pySplitNL content) (pySplitNL content) 1

/-- The per-file body of the grep loop (lines 436-462): fetch via
`get_file`, read `file_content.get("content", "")`, scan the lines; any
raised exception is logged and the file is skipped (`continue`),
contributing no matches. -/
def scanFile {R : Type} (eng : RegexEngine R) (cp : CompiledPattern R)
    (fetch : String → Except String FileDict) (contextLines : Nat) (item : TreeItem) :
    List SearchMatch :=
  match get_file fetch item.path with
  | Except.ok fd => grepFileContent (patternSearch eng cp) item.path contextLines
      (fd.content.getD "")
  | Except.error _ => []

/-- Model of `grep_repository_content(pattern, file_filter, ref, case_insensitive,
context_lines, max_files)` after the tree fetch: select candidate files,
compile the pattern with literal fallback, and concatenate the per-file
matches in file-scan order. -/
def grep_repository_content {R : Type} (eng : RegexEngine R)
    (fetch : String → Except String FileDict) (tree : List TreeItem) (pattern : String)
    (file_filter : Option String) (case_insensitive : Bool)
    (context_lines max_files : Nat) : List SearchMatch :=
  (selectFiles tree file_filter max_files).flatMap
    (scanFile eng (compilePattern eng pattern case_insensitive) fetch context_lines)

/-! The `search_commits_enhanced` operation (lines 466-500). -/

/-- The commit dictionary fields the filter reads. -/
structure CommitRecord where
  id : String
  message : String
  author_name : String
  author_email : String
  deriving DecidableEq

/-- Lines 478-485: the grep filter on the commit message.
`re.search(grep, message, re.IGNORECASE)` raises `re.error` iff `grep`
does not compile; in that case the fallback is the case-insensitive
substring test `grep.lower() in message.lower()`. -/
def commitGrepPass {R : Type} (eng : RegexEngine R) (grep : String) (message : String) :
    Bool :=
  match eng.compile grep with
  | some r => (eng.rsearch r true message).isSome
  | none => pySubstr (pyLower grep) (pyLower message)

/-- Lines 487-492: the author filter — case-insensitive substring match
against the author name or email. -/
def commitAuthorPass (author : String) (c : CommitRecord) : Bool :=
  pySubstr (pyLower author) (pyLower c.author_name) ||
    pySubstr (pyLower author) (pyLower c.author_email)

/-- Whether one commit survives both optional filters. -/
def commitPass {R : Type} (eng : RegexEngine R) (grep author : Option String)
    (c : CommitRecord) : Bool :=
  (match grep with
   | some g => commitGrepPass eng g c.message
   | none => true) &&
  (match author with
   | some a => commitAuthorPass a c
   | none => true)

set_option linter.unusedVariables false in
/-- Model of `search_commits_enhanced(grep, author, file_path, since, until,
limit)` after the host call: `commits` models the response of
`list_commits(since=since, until=until)`.  Only the first `limit * 3`
commits are examined (`commits[:limit * 3]`, line 476); accumulation stops
once `limit` commits pass, with the same append-then-test break as the
other loops.  `file_path` is accepted but never used (lines 498-500). -/
def search_commits_enhanced {R : Type} (eng : RegexEngine R) (commits : List CommitRecord)
    (grep author file_path : Option String) (limit : Nat) : List CommitRecord :=
  collectLimited (commitPass eng grep author) limit (commits.take (limit * 3)) 0

/-! Concrete data used by the claim instances. -/

/-- The exhaustion message of line 118. -/
def exhaustMsg (retries : Nat) (endpoint : String) : String :=
  "API request failed after " ++ toString retries ++ " attempts: " ++ endpoint

/-- The claim C5 form of the context window: the lines at 1-based indices
`max(1, n - c)` through `min(L, n + c)` inclusive. -/
def contextSpecSlice (lines : List String) (n c : Nat) : List String :=
  (List.range' (max 1 (n - c)) (min lines.length (n + c) + 1 - max 1 (n - c))).map
    (fun i => lines.getD (i - 1) "")

/-- The tree of claim C1: file entries `a.py`, `dir/b.py`, `dir/c.txt`. -/
def treeC1 : List TreeItem :=
  [⟨"blob", "a.py"⟩, ⟨"blob", "dir/b.py"⟩, ⟨"blob", "dir/c.txt"⟩]

/-- A regex engine on which every pattern fails to compile, used to
instantiate hypotheses of the form `eng.compile pattern = none`. -/
def engNone : RegexEngine Unit :=
  { compile := fun _ => none, rsearch := fun _ _ _ => none }

/-- The base64 encoding of `match me`, the body of `ok.txt` in the C6
witness. -/
def okB64 : String := "bWF0Y2ggbWU="

/-- The C7 counterexample commits: ten commits of which exactly the last
three match the author substring `ali` — all matches fall outside the
`limit * 3 = 6` over-fetch window. -/
def commits10 : List CommitRecord :=
  [⟨"c1", "m1", "bob", "bob@x.io"⟩, ⟨"c2", "m2", "bob", "bob@x.io"⟩,
   ⟨"c3", "m3", "bob", "bob@x.io"⟩, ⟨"c4", "m4", "bob", "bob@x.io"⟩,
   ⟨"c5", "m5", "bob", "bob@x.io"⟩, ⟨"c6", "m6", "bob", "bob@x.io"⟩,
   ⟨"c7", "m7", "Alice", "alice@x.io"⟩, ⟨"c8", "m8", "Alice", "alice@x.io"⟩,
   ⟨"c9", "m9", "Alice", "alice@x.io"⟩, ⟨"c10", "m10", "bob", "bob@x.io"⟩]

/-- The C7 witness commits: ten commits of which exactly the first, third
and eighth match the author substring `ali`. -/
def commits10W : List CommitRecord :=
  [⟨"c1", "m1", "Alice", "alice@x.io"⟩, ⟨"c2", "m2", "bob", "bob@x.io"⟩,
   ⟨"c3", "m3", "carol", "ali@y.io"⟩, ⟨"c4", "m4", "bob", "bob@x.io"⟩,
   ⟨"c5", "m5", "bob", "bob@x.io"⟩, ⟨"c6", "m6", "bob", "bob@x.io"⟩,
   ⟨"c7", "m7", "bob", "bob@x.io"⟩, ⟨"c8", "m8", "Alina", "a@x.io"⟩,
   ⟨"c9", "m9", "bob", "bob@x.io"⟩, ⟨"c10", "m10", "bob", "bob@x.io"⟩]

/-- The base64 encoding of the 5-line body `l1\nl2\nl3x\nl4\nl5` used by
the C5 witness; the pattern `x` matches exactly line 3. -/
def bodyC5 : String := "bDEKbDIKbDN4Cmw0Cmw1"

/-! Transport lemmas follow. -/

theorem makeRequestFrom_congr {J : Type} (jp : String → Option J)
    (host host' : Nat → CurlOutcome) (endpoint : String) (retries : Nat) :
    ∀ attempt, (∀ i, attempt ≤ i → i ≤ retries → host' i = host i) →
      makeRequestFrom jp host' endpoint retries attempt =
        makeRequestFrom jp host endpoint retries attempt := by
  have H : ∀ n attempt, retries + 1 - attempt = n →
      (∀ i, attempt ≤ i → i ≤ retries → host' i = host i) →
      makeRequestFrom jp host' endpoint retries attempt =
        makeRequestFrom jp host endpoint retries attempt := by
    intro n
    induction n with
    | zero =>
      intro attempt hn _
      have h : ¬ attempt ≤ retries := by omega
      conv_lhs => rw [makeRequestFrom]
      conv_rhs => rw [makeRequestFrom]
      simp [h]
    | succ n ih =>
      intro attempt hn hag
      by_cases h : attempt ≤ retries
      · conv_lhs => rw [makeRequestFrom]
        conv_rhs => rw [makeRequestFrom]
        simp only [if_pos h]
        rw [hag attempt le_rfl h]
        cases hx : attemptSuccess jp (host attempt) with
        | some r => simp [hx]
        | none =>
          simp only [hx]
          exact ih (attempt + 1) (by omega) (fun i h1 h2 => hag i (by omega) h2)
      · conv_lhs => rw [makeRequestFrom]
        conv_rhs => rw [makeRequestFrom]
        simp [h]
  intro attempt
  exact H (retries + 1 - attempt) attempt rfl

theorem makeRequestFrom_exhausted {J : Type} (jp : String → Option J)
    (host : Nat → CurlOutcome) (endpoint : String) (retries : Nat) :
    ∀ attempt, (∀ i, attempt ≤ i → i ≤ retries → attemptSuccess jp (host i) = none) →
      makeRequestFrom jp host endpoint retries attempt =
        TransportResult.exhausted (exhaustMsg retries endpoint) := by
  have H : ∀ n attempt, retries + 1 - attempt = n →
      (∀ i, attempt ≤ i → i ≤ retries → attemptSuccess jp (host i) = none) →
      makeRequestFrom jp host endpoint retries attempt =
        TransportResult.exhausted (exhaustMsg retries endpoint) := by
    intro n
    induction n with
    | zero =>
      intro attempt hn _
      have h : ¬ attempt ≤ retries := by omega
      rw [makeRequestFrom]
      simp [h, exhaustMsg]
    | succ n ih =>
      intro attempt hn hfail
      rw [makeRequestFrom]
      by_cases h : attempt ≤ retries
      · simp only [if_pos h, hfail attempt le_rfl h]
        exact ih (attempt + 1) (by omega) (fun i h1 h2 => hfail i (by omega) h2)
      · simp [h, exhaustMsg]
  intro attempt
  exact H (retries + 1 - attempt) attempt rfl

theorem makeRequestFrom_success {J : Type} (jp : String → Option J)
    (host : Nat → CurlOutcome) (endpoint : String) (retries m : Nat)
    (r : ApiResponse J) :
    ∀ attempt, attempt ≤ m → m ≤ retries →
      (∀ i, attempt ≤ i → i < m → attemptSuccess jp (host i) = none) →
      attemptSuccess jp (host m) = some r →
      makeRequestFrom jp host endpoint retries attempt = TransportResult.success r := by
  have H : ∀ n attempt, m - attempt = n → attempt ≤ m → m ≤ retries →
      (∀ i, attempt ≤ i → i < m → attemptSuccess jp (host i) = none) →
      attemptSuccess jp (host m) = some r →
      makeRequestFrom jp host endpoint retries attempt = TransportResult.success r := by
    intro n
    induction n with
    | zero =>
      intro attempt hn hm hmr _ hsucc
      have : attempt = m := by omega
      subst this
      rw [makeRequestFrom]
      simp [Nat.le_trans hm hmr, hsucc]
    | succ n ih =>
      intro attempt hn hm hmr hfail hsucc
      have hlt : attempt < m := by omega
      rw [makeRequestFrom]
      have h : attempt ≤ retries := by omega
      simp only [if_pos h, hfail attempt le_rfl hlt]
      exact ih (attempt + 1) (by omega) (by omega) hmr
        (fun i h1 h2 => hfail i (by omega) h2) hsucc
  intro attempt h1 h2 h3 h4
  exact H (m - attempt) attempt rfl h1 h2 h3 h4

/-! Substring-search lemmas. -/

theorem firstOccur_isSome_iff (p : List Char) :
    ∀ s : List Char, (firstOccur p s).isSome = true ↔ p <:+: s := by
  intro s
  induction s with
  | nil =>
    rw [firstOccur]
    by_cases hp : p = []
    · simp [hp]
    · simp [hp, List.infix_nil]
  | cons c s' ih =>
    rw [firstOccur]
    by_cases hpre : p.isPrefixOf (c :: s')
    · simp only [if_pos hpre, Option.isSome_some]
      constructor
      · intro _
        have hp2 : p <+: c :: s' := by simpa using hpre
        exact hp2.isInfix
      · intro _
        trivial
    · simp only [if_neg hpre, Option.isSome_map']
      rw [ih, List.infix_cons_iff]
      constructor
      · intro h
        exact Or.inr h
      · intro h
        cases h with
        | inl h => exact absurd h (by simpa using hpre)
        | inr h => exact h

theorem pySubstr_infix_iff (p s : String) :
    pySubstr p s = true ↔ p.data <:+: s.data :=
  firstOccur_isSome_iff p.data s.data

/-- The exhaustion message of line 118 literally contains the endpoint. -/
theorem exhaustMsg_names_endpoint (retries : Nat) (endpoint : String) :
    pySubstr endpoint (exhaustMsg retries endpoint) = true := by
  rw [pySubstr_infix_iff]
  simp only [exhaustMsg, String.data_append]
  exact (List.suffix_append _ _).isInfix

/-- The exhaustion message of line 118 literally contains the attempt
count. -/
theorem exhaustMsg_names_count (retries : Nat) (endpoint : String) :
    pySubstr (toString retries) (exhaustMsg retries endpoint) = true := by
  rw [pySubstr_infix_iff]
  simp only [exhaustMsg, String.data_append]
  exact ((List.infix_append _ _ _).trans (List.prefix_append _ _).isInfix)

/-! Claims C2, C3, C9: the transport. -/

/-- C2: for every request whose attempts all fail at the transport level,
`_make_request` terminates by raising the single terminal error of line
118, whose message names the requested endpoint and the attempt count, and
the outcome never depends on host behaviour beyond the `retries` budgeted
attempts (so no further attempts are made beyond the budget). -/
theorem claim_C2_exhaustion {J : Type} (jp : String → Option J)
    (host : Nat → CurlOutcome) (endpoint : String) (retries : Nat)
    (hfail : ∀ i, 1 ≤ i → i ≤ retries → attemptSuccess jp (host i) = none) :
    make_request jp host endpoint retries =
      TransportResult.exhausted (exhaustMsg retries endpoint) ∧
    pySubstr endpoint (exhaustMsg retries endpoint) = true ∧
    pySubstr (toString retries) (exhaustMsg retries endpoint) = true ∧
    ∀ host' : Nat → CurlOutcome,
      (∀ i, 1 ≤ i → i ≤ retries → host' i = host i) →
      make_request jp host' endpoint retries = make_request jp host endpoint retries := by
  refine ⟨?_, exhaustMsg_names_endpoint _ _, exhaustMsg_names_count _ _, ?_⟩
  · exact makeRequestFrom_exhausted jp host endpoint retries 1 (fun i h1 h2 => hfail i h1 h2)
  · intro host' hag
    exact makeRequestFrom_congr jp host host' endpoint retries 1 hag

theorem claim_C2_exhaustion_witness :
    make_request (J := Nat) (fun _ => none) (fun _ => CurlOutcome.timedOut)
        "/api/v4/projects" 3 =
      TransportResult.exhausted "API request failed after 3 attempts: /api/v4/projects" :=
  (claim_C2_exhaustion (J := Nat) (fun _ => none) (fun _ => CurlOutcome.timedOut)
    "/api/v4/projects" 3 (fun _ _ _ => rfl)).1

/-- C3: if the host fails the first `k < retries` attempts and attempt
`k + 1` completes with exit code 0 and a non-empty body `s`,
`_make_request` returns that success (the body parsed as JSON when
possible, otherwise the raw text), and the outcome never depends on host
behaviour after the successful attempt (no further attempts are
performed). -/
theorem claim_C3_success_after_failures {J : Type} (jp : String → Option J)
    (host : Nat → CurlOutcome) (endpoint stderr : String) (retries k : Nat) (s : String)
    (hk : k < retries)
    (hfail : ∀ i, 1 ≤ i → i ≤ k → attemptSuccess jp (host i) = none)
    (hsucc : host (k + 1) = CurlOutcome.completed 0 s stderr)
    (hs : s ≠ "") :
    make_request jp host endpoint retries = TransportResult.success (parseBody jp s) ∧
    ∀ host' : Nat → CurlOutcome,
      (∀ i, 1 ≤ i → i ≤ k + 1 → host' i = host i) →
      make_request jp host' endpoint retries = make_request jp host endpoint retries := by
  have hsome : attemptSuccess jp (host (k + 1)) = some (parseBody jp s) := by
    rw [hsucc]
    simp [attemptSuccess, hs]
  have h1 : make_request jp host endpoint retries =
      TransportResult.success (parseBody jp s) :=
    makeRequestFrom_success jp host endpoint retries (k + 1) (parseBody jp s) 1
      (by omega) (by omega) (fun i hi1 hi2 => hfail i hi1 (by omega)) hsome
  refine ⟨h1, ?_⟩
  intro host' hag
  have hsome' : attemptSuccess jp (host' (k + 1)) = some (parseBody jp s) := by
    rw [hag (k + 1) (by omega) le_rfl]
    exact hsome
  have h1' : make_request jp host' endpoint retries =
      TransportResult.success (parseBody jp s) :=
    makeRequestFrom_success jp host' endpoint retries (k + 1) (parseBody jp s) 1
      (by omega) (by omega)
      (fun i hi1 hi2 => by rw [hag i hi1 (by omega)]; exact hfail i hi1 (by omega)) hsome'
  rw [h1, h1']

theorem claim_C3_success_after_failures_witness :
    make_request (J := Nat) (fun s => if s = "[]" then some 7 else none)
        (fun i => if i = 1 then CurlOutcome.completed 6 "" "connection refused"
                  else CurlOutcome.completed 0 "[]" "")
        "/api/v4/projects/1/pipelines" 3 =
      TransportResult.success (ApiResponse.json 7) :=
  (claim_C3_success_after_failures (J := Nat) (fun s => if s = "[]" then some 7 else none)
    (fun i => if i = 1 then CurlOutcome.completed 6 "" "connection refused"
              else CurlOutcome.completed 0 "[]" "")
    "/api/v4/projects/1/pipelines" "" 3 1 "[]" (by omega)
    (fun i h1 h2 => by
      have : i = 1 := by omega
      subst this
      rfl)
    rfl (by decide)).1

/-- C9: exit code 0 with an empty response body is treated as a failed
attempt (line 98 demands both exit code 0 and a non-empty body), so a host
that reports empty-bodied success on every attempt drives `_make_request`
through the whole budget and into the exhaustion error. -/
theorem claim_C9_empty_body_exhausts {J : Type} (jp : String → Option J)
    (host : Nat → CurlOutcome) (stderrs : Nat → String) (endpoint : String) (retries : Nat)
    (hempty : ∀ i, host i = CurlOutcome.completed 0 "" (stderrs i)) :
    make_request jp host endpoint retries =
      TransportResult.exhausted (exhaustMsg retries endpoint) :=
  makeRequestFrom_exhausted jp host endpoint retries 1
    (fun i _ _ => by rw [hempty i]; simp [attemptSuccess])

theorem claim_C9_empty_body_exhausts_witness :
    make_request (J := Nat) (fun _ => some 0) (fun _ => CurlOutcome.completed 0 "" "")
        "/api/v4/projects" 3 =
      TransportResult.exhausted "API request failed after 3 attempts: /api/v4/projects" :=
  claim_C9_empty_body_exhausts (J := Nat) (fun _ => some 0)
    (fun _ => CurlOutcome.completed 0 "" "") (fun _ => "") "/api/v4/projects" 3
    (fun _ => rfl)

/-! Claim C1: glob file discovery. -/

/-- C1 counterexample: over that tree, `search_files("**/*.py",
max_results=100)` does NOT return `a.py`.  `fnmatch.fnmatch` gives `*` no
segment boundary and `**` no special meaning, so `**/*.py` demands at
least one `/` and the root-level `a.py` fails the pattern. -/
theorem claim_C1_counterexample :
    ¬ (TreeItem.mk "blob" "a.py" ∈ search_files treeC1 "**/*.py" 100) := by
  decide

/-- C1 (amended): over a tree with file entries `a.py`, `dir/b.py` and
`dir/c.txt`, `search_files("**/*.py", max_results=100)` returns exactly
the single entry `dir/b.py`, because `fnmatch` matches `*` across path
segments and treats `**` as two ordinary stars, so `**/*.py` matches
exactly the `.py` paths containing a slash. -/
theorem claim_C1_glob_matching :
    search_files treeC1 "**/*.py" 100 = [TreeItem.mk "blob" "dir/b.py"] := by
  decide

/-! Claim C8: `file_path` never influences `search_commits_enhanced`. -/

/-- C8: two invocations of `search_commits_enhanced` differing only in
`file_path` (same host commit list, grep, author and limit) return the
identical commit list — the parameter is accepted but unused. -/
theorem claim_C8_file_path_ignored {R : Type} (eng : RegexEngine R)
    (commits : List CommitRecord) (grep author fp₁ fp₂ : Option String) (limit : Nat) :
    search_commits_enhanced eng commits grep author fp₁ limit =
      search_commits_enhanced eng commits grep author fp₂ limit :=
  rfl

/-! Claim C4: literal fallback for uncompilable patterns. -/

theorem literalSearch_isSome (p line : String) (ci : Bool) :
    (literalSearch p line ci).isSome =
      (if ci then pySubstr (pyLower p) (pyLower line) else pySubstr p line) := by
  rw [literalSearch]
  cases ci with
  | false =>
    simp only [Bool.false_eq_true, if_false]
    cases h : firstOccur p.data line.data with
    | some i => simp [pySubstr, h]
    | none => simp [pySubstr, h]
  | true =>
    simp only [if_true]
    cases h : firstOccur (pyLower p).data (pyLower line).data with
    | some i => simp [pySubstr, h]
    | none => simp [pySubstr, h]

/-- C4: when the user-supplied pattern fails to compile, both
`grep_repository_content` and `search_commits_enhanced` replace it by
literal matching and surface no error: the grep runs with the
escaped-literal pattern, whose per-line test is exactly a
(case-insensitive when requested) substring test, and the commit-message
filter degrades to the case-insensitive substring test of lines 483-485. -/
theorem claim_C4_pattern_fallback {R : Type} (eng : RegexEngine R) (pattern : String)
    (hbad : eng.compile pattern = none)
    (fetch : String → Except String FileDict) (tree : List TreeItem)
    (ff : Option String) (ci : Bool) (c mf : Nat) :
    grep_repository_content eng fetch tree pattern ff ci c mf =
      (selectFiles tree ff mf).flatMap
        (scanFile eng (CompiledPattern.literal pattern ci) fetch c) ∧
    (∀ line, patternSearch eng (CompiledPattern.literal pattern ci) line =
        literalSearch pattern line ci) ∧
    (∀ line, (patternSearch eng (CompiledPattern.literal pattern ci) line).isSome =
        (if ci then pySubstr (pyLower pattern) (pyLower line)
         else pySubstr pattern line)) ∧
    (∀ message, commitGrepPass eng pattern message =
        pySubstr (pyLower pattern) (pyLower message)) := by
  refine ⟨?_, fun _ => rfl, fun line => literalSearch_isSome pattern line ci, ?_⟩
  · rw [grep_repository_content, compilePattern, hbad]
  · intro message
    rw [commitGrepPass, hbad]

theorem claim_C4_pattern_fallback_witness :
    grep_repository_content engNone (fun _ => Except.ok { content := none })
        [⟨"blob", "x.py"⟩] "(" none false 0 50 =
      (selectFiles [⟨"blob", "x.py"⟩] none 50).flatMap
        (scanFile engNone (CompiledPattern.literal "(" false)
          (fun _ => Except.ok { content := none }) 0) ∧
    commitGrepPass engNone "(" "fix (bug)" = pySubstr (pyLower "(") (pyLower "fix (bug)") :=
  ⟨(claim_C4_pattern_fallback engNone "(" rfl (fun _ => Except.ok { content := none })
      [⟨"blob", "x.py"⟩] none false 0 50).1,
   (claim_C4_pattern_fallback engNone "(" rfl (fun _ => Except.ok { content := none })
      [⟨"blob", "x.py"⟩] none false 0 50).2.2.2 "fix (bug)"⟩

/-! Claim C6: per-file fetch failures inside a grep batch. -/

/-- C6: if the fetch of one candidate file raises, `grep_repository_content`
still scans every other candidate and returns their matches in order — the
failing file contributes nothing — and when the failing file is the only
candidate the result is the empty list, not an error. -/
theorem claim_C6_partial_fetch_failure {R : Type} (eng : RegexEngine R)
    (fetch : String → Except String FileDict) (tree : List TreeItem) (pattern : String)
    (ff : Option String) (ci : Bool) (c mf : Nat) (l₁ l₂ : List TreeItem) (f : TreeItem)
    (e : String)
    (hsel : selectFiles tree ff mf = l₁ ++ f :: l₂)
    (herr : get_file fetch f.path = Except.error e) :
    grep_repository_content eng fetch tree pattern ff ci c mf =
      l₁.flatMap (scanFile eng (compilePattern eng pattern ci) fetch c) ++
        l₂.flatMap (scanFile eng (compilePattern eng pattern ci) fetch c) ∧
    (l₁ = [] → l₂ = [] → grep_repository_content eng fetch tree pattern ff ci c mf = []) := by
  have hscan : scanFile eng (compilePattern eng pattern ci) fetch c f = [] := by
    rw [scanFile, herr]
  have hmain : grep_repository_content eng fetch tree pattern ff ci c mf =
      l₁.flatMap (scanFile eng (compilePattern eng pattern ci) fetch c) ++
        l₂.flatMap (scanFile eng (compilePattern eng pattern ci) fetch c) := by
    rw [grep_repository_content, hsel, List.flatMap_append, List.flatMap_cons, hscan,
      List.nil_append]
  refine ⟨hmain, fun h1 h2 => ?_⟩
  rw [hmain, h1, h2]
  rfl

theorem claim_C6_partial_fetch_failure_witness :
    grep_repository_content engNone
        (fun path => if path = "bad.txt" then Except.error "boom"
                     else Except.ok { content := some okB64 })
        [⟨"blob", "bad.txt"⟩, ⟨"blob", "ok.txt"⟩] "match" none false 0 50 =
      [].flatMap (scanFile engNone (compilePattern engNone "match" false)
          (fun path => if path = "bad.txt" then Except.error "boom"
                       else Except.ok { content := some okB64 }) 0) ++
        [TreeItem.mk "blob" "ok.txt"].flatMap
          (scanFile engNone (compilePattern engNone "match" false)
            (fun path => if path = "bad.txt" then Except.error "boom"
                         else Except.ok { content := some okB64 }) 0) :=
  (claim_C6_partial_fetch_failure engNone
    (fun path => if path = "bad.txt" then Except.error "boom"
                 else Except.ok { content := some okB64 })
    [⟨"blob", "bad.txt"⟩, ⟨"blob", "ok.txt"⟩] "match" none false 0 50
    [] [⟨"blob", "ok.txt"⟩] ⟨"blob", "bad.txt"⟩ "boom" (by decide) rfl).1

/-! Claim C7: author filtering with the over-fetch window. -/

theorem collectLimited_eq_filter_take {α : Type} (p : α → Bool) (limit : Nat) :
    ∀ (l : List α) (count : Nat), count < limit →
      collectLimited p limit l count = (l.filter p).take (limit - count) := by
  intro l
  induction l with
  | nil =>
    intro count h
    simp [collectLimited]
  | cons x xs ih =>
    intro count h
    rw [collectLimited]
    by_cases hx : p x
    · rw [List.filter_cons_of_pos hx]
      by_cases hlim : count + 1 ≥ limit
      · have he : limit - count = 1 := by omega
        simp [hx, hlim, he]
      · have he : limit - count = (limit - (count + 1)) + 1 := by omega
        simp only [if_pos hx, if_neg hlim, he, List.take_succ_cons]
        rw [ih (count + 1) (by omega)]
    · rw [List.filter_cons_of_neg (by simpa using hx), if_neg hx, ih count h]

/-- Unrolling `search_commits_enhanced` with a positive limit: filter the first
`limit * 3` commits, keep the first `limit` survivors. -/
theorem search_commits_enhanced_eq_filter_take {R : Type} (eng : RegexEngine R)
    (commits : List CommitRecord) (grep author fp : Option String) (limit : Nat)
    (h : 1 ≤ limit) :
    search_commits_enhanced eng commits grep author fp limit =
      ((commits.take (limit * 3)).filter (commitPass eng grep author)).take limit := by
  rw [search_commits_enhanced, collectLimited_eq_filter_take _ _ _ 0 (by omega)]
  norm_num

/-- Taking `k` from a filtered prefix equals taking `k` from the filtered
whole list, provided the prefix already contains `k` survivors. -/
theorem filter_take_of_enough {α : Type} (p : α → Bool) (l : List α) (n k : Nat)
    (h : k ≤ ((l.take n).filter p).length) :
    ((l.take n).filter p).take k = (l.filter p).take k := by
  conv_rhs => rw [← List.take_append_drop n l]
  rw [List.filter_append, List.take_append_of_le_length h]

/-- C7 counterexample: with the ten commits above (exactly three match
author "ali", case-insensitively, but all after position 6),
`search_commits_enhanced(author="ali", limit=2)` returns the empty list,
not the first 2 matching commits — the claim fails as stated for every
commit list, because only the first `limit * 3` commits are ever
examined. -/
theorem claim_C7_counterexample :
    (commits10.filter (commitPass engNone none (some "ali"))).length = 3 ∧
    search_commits_enhanced engNone commits10 none (some "ali") none 2 = [] ∧
    search_commits_enhanced engNone commits10 none (some "ali") none 2 ≠
      (commits10.filter (commitPass engNone none (some "ali"))).take 2 := by
  refine ⟨by decide, by decide, by decide⟩

set_option linter.unusedVariables false in
/-- C7 (amended): for a host commit list of 10 commits of which exactly 3
match the author substring (case-insensitively against name and email),
`search_commits_enhanced(author, limit=2)` returns exactly the first 2
matching commits in the host's original order, *provided* at least 2 of
the matching commits occur within the `limit * 3 = 6` commits the search
examines — the code never scans beyond that over-fetch window. -/
theorem claim_C7_author_filter {R : Type} (eng : RegexEngine R)
    (commits : List CommitRecord) (author : String) (fp : Option String)
    (hlen : commits.length = 10)
    (hmatch : (commits.filter (commitPass eng none (some author))).length = 3)
    (hwin : 2 ≤ ((commits.take 6).filter (commitPass eng none (some author))).length) :
    search_commits_enhanced eng commits none (some author) fp 2 =
      (commits.filter (commitPass eng none (some author))).take 2 := by
  rw [search_commits_enhanced_eq_filter_take eng commits none (some author) fp 2 (by omega)]
  exact filter_take_of_enough _ _ 6 2 hwin

theorem claim_C7_author_filter_witness :
    search_commits_enhanced engNone commits10W none (some "ali") none 2 =
      (commits10W.filter (commitPass engNone none (some "ali"))).take 2 :=
  claim_C7_author_filter engNone commits10W "ali" none (by decide) (by decide) (by decide)

/-! Claim C5: context windows are exactly the clamped slice. -/

theorem drop_take_eq_range'_map {α : Type} (d : α) (l : List α) (a b : Nat)
    (h : a + b ≤ l.length) :
    (l.drop a).take b = (List.range' (a + 1) b).map (fun i => l.getD (i - 1) d) := by
  apply List.ext_getElem
  · simp
    omega
  · intro i h1 h2
    rw [List.getElem_take, List.getElem_drop, List.getElem_map, List.getElem_range']
    have hb : i < b := by
      simp at h2
      omega
    have hi : a + 1 + 1 * i - 1 = a + i := by omega
    rw [hi, List.getD_eq_getElem?_getD, List.getElem?_eq_getElem (by omega),
      Option.getD_some]

theorem contextSlice_eq_spec (lines : List String) (n c : Nat)
    (h1 : 1 ≤ n) (h2 : n ≤ lines.length) :
    contextSlice lines n c = contextSpecSlice lines n c := by
  rw [contextSlice, contextSpecSlice]
  have hs : (max 0 ((n : Int) - (c : Int) - 1)).toNat = max 1 (n - c) - 1 := by omega
  have he : ((min ((lines.length : Int)) ((n : Int) + (c : Int))) -
      max 0 ((n : Int) - (c : Int) - 1)).toNat =
      min lines.length (n + c) + 1 - max 1 (n - c) := by omega
  simp only [hs, he]
  have ha : max 1 (n - c) = (max 1 (n - c) - 1) + 1 := by omega
  rw [ha]
  apply drop_take_eq_range'_map
  omega

/-- Every match emitted by the line scan of one file has a 1-based line
number within the file, carries the file name, and its context field is
the clamped `contextSlice` exactly when a positive context width was
requested. -/
theorem grepFileAux_mem (ps : String → Option String) (file : String) (c : Nat)
    (lines : List String) :
    ∀ (rest : List String) (lineNum : Nat), 1 ≤ lineNum →
      rest = lines.drop (lineNum - 1) →
      ∀ m ∈ grepFileAux ps file c lines rest lineNum,
        1 ≤ m.line_number ∧ m.line_number ≤ lines.length ∧ m.file = file ∧
          m.context = (if 0 < c then some (contextSlice lines m.line_number c)
                       else none) := by
  intro rest
  induction rest with
  | nil =>
    intro lineNum hge hdrop m hm
    simp [grepFileAux] at hm
  | cons line rest' ih =>
    intro lineNum hge hdrop m hm
    rw [grepFileAux, List.mem_append] at hm
    have hlen : lineNum ≤ lines.length := by
      by_contra hcon
      have : lines.drop (lineNum - 1) = [] := by
        rw [List.drop_eq_nil_iff]
        omega
      rw [this] at hdrop
      exact List.cons_ne_nil _ _ hdrop
    cases hm with
    | inl hm =>
      cases hps : ps line with
      | some mm =>
        rw [hps] at hm
        simp only [List.mem_singleton] at hm
        subst hm
        exact ⟨hge, hlen, rfl, rfl⟩
      | none =>
        rw [hps] at hm
        simp at hm
    | inr hm =>
      refine ih (lineNum + 1) (by omega) ?_ m hm
      have : lines.drop lineNum = (lines.drop (lineNum - 1)).tail := by
        rw [List.tail_drop]
        congr 1
        omega
      rw [← hdrop] at this
      simpa using this.symm

/-- C5: every match `m` returned by `grep_repository_content` with a
positive `context_lines = c` comes from a successfully fetched file whose
decoded body splits into `L` lines, has `1 ≤ m.line_number ≤ L`, and
carries as context exactly the slice of lines `max(1, n - c)` through
`min(L, n + c)` inclusive (1-based) — clamped at the file bounds, with no
out-of-range access. -/
theorem claim_C5_context_window {R : Type} (eng : RegexEngine R)
    (fetch : String → Except String FileDict) (tree : List TreeItem) (pattern : String)
    (ff : Option String) (ci : Bool) (c mf : Nat) (m : SearchMatch)
    (hc : 0 < c)
    (hm : m ∈ grep_repository_content eng fetch tree pattern ff ci c mf) :
    ∃ fd, get_file fetch m.file = Except.ok fd ∧
      1 ≤ m.line_number ∧
      m.line_number ≤ (pySplitNL (fd.content.getD "")).length ∧
      m.context = some (contextSpecSlice (pySplitNL (fd.content.getD ""))
        m.line_number c) := by
  rw [grep_repository_content, List.mem_flatMap] at hm
  obtain ⟨item, _, hm⟩ := hm
  rw [scanFile] at hm
  cases hg : get_file fetch item.path with
  | error e =>
    rw [hg] at hm
    simp at hm
  | ok fd =>
    rw [hg] at hm
    simp only [grepFileContent] at hm
    obtain ⟨hn1, hn2, hfile, hctx⟩ :=
      grepFileAux_mem (patternSearch eng _) item.path c _ _ 1 le_rfl (by simp) m hm
    refine ⟨fd, ?_, hn1, hn2, ?_⟩
    · rw [hfile, hg]
    · rw [hctx, if_pos hc, contextSlice_eq_spec _ _ _ hn1 hn2]

theorem claim_C5_context_window_witness :
    ∃ fd, get_file (fun _ => Except.ok { content := some bodyC5 })
        (SearchMatch.file ⟨"f.txt", 3, "l3x", "x", some ["l2", "l3x", "l4"]⟩) =
          Except.ok fd ∧
      1 ≤ SearchMatch.line_number ⟨"f.txt", 3, "l3x", "x", some ["l2", "l3x", "l4"]⟩ ∧
      SearchMatch.line_number ⟨"f.txt", 3, "l3x", "x", some ["l2", "l3x", "l4"]⟩ ≤
        (pySplitNL (fd.content.getD "")).length ∧
      SearchMatch.context ⟨"f.txt", 3, "l3x", "x", some ["l2", "l3x", "l4"]⟩ =
        some (contextSpecSlice (pySplitNL (fd.content.getD ""))
          (SearchMatch.line_number ⟨"f.txt", 3, "l3x", "x", some ["l2", "l3x", "l4"]⟩) 1) :=
  claim_C5_context_window engNone (fun _ => Except.ok { content := some bodyC5 })
    [⟨"blob", "f.txt"⟩] "x" none false 1 50
    ⟨"f.txt", 3, "l3x", "x", some ["l2", "l3x", "l4"]⟩ (by decide) (by decide)

/-! Claim C10: invalid UTF-8 file content. -/

/-- C10: for a candidate file whose fetched `content` field base64-decodes
to bytes that are not valid UTF-8, `get_file` raises the strict decoding
error — there is no encoding fallback on this path, unlike the transport's
lossy stdout decoding — and the grep scan of that file therefore
contributes no matches: the file is silently skipped. -/
theorem claim_C10_invalid_utf8_skipped {R : Type} (eng : RegexEngine R)
    (cp : CompiledPattern R) (fetch : String → Except String FileDict)
    (item : TreeItem) (fd : FileDict) (b64 : String) (bytes : List Nat) (c : Nat)
    (hfetch : fetch item.path = Except.ok fd)
    (hcontent : fd.content = some b64)
    (hb64 : b64decode b64 = some bytes)
    (hutf8 : utf8Decode bytes = none) :
    get_file fetch item.path = Except.error "UnicodeDecodeError" ∧
    scanFile eng cp fetch c item = [] := by
  have hget : get_file fetch item.path = Except.error "UnicodeDecodeError" := by
    rw [get_file, hfetch]
    simp only [hcontent, hb64, hutf8]
  exact ⟨hget, by rw [scanFile, hget]⟩

theorem claim_C10_invalid_utf8_skipped_witness :
    get_file (fun _ => Except.ok { content := some "/w==" }) "data.txt" =
      Except.error "UnicodeDecodeError" ∧
    scanFile engNone (CompiledPattern.literal "x" false)
        (fun _ => Except.ok { content := some "/w==" }) 0 ⟨"blob", "data.txt"⟩ = [] :=
  claim_C10_invalid_utf8_skipped engNone (CompiledPattern.literal "x" false)
    (fun _ => Except.ok { content := some "/w==" }) ⟨"blob", "data.txt"⟩
    { content := some "/w==" } "/w==" [255] 0 rfl rfl (by decide) (by decide)

end GitlabMcp
